import Mathlib

/-!
Verification of the client data-cache and view-derivation layer of the
FindIt item-tracking front end.

The definitions below are shallow embeddings of the JavaScript source:

* `fetchData`, `refresh`, `invalidateCache` embed the `useCachedData` hook
  (src/hooks/useDataCache): reactive `useState`/`useRef` cells become the
  explicit record `CachedFetchState`, the wrapped asynchronous operation
  becomes an explicit `FetchOutcome` argument (its result, or the exception
  it threw), and the boolean component of the result records whether the
  underlying operation was invoked by this call.
* `DataCache` embeds the `DataCache` class from the same module; the two
  JavaScript `Map`s become functions `String → Option _`, and `Date.now()`
  becomes an explicit `now` argument.
* Times are integers (milliseconds); JavaScript numbers are exact on this
  range, so integer arithmetic is a faithful model.
-/

/-- Result shape `{success, data, error}` returned by the wrapped fetch
operations (`getAllItems`, `getAllDocuments`, ...).  `data` is `none` when
the field is absent or `null`; a present array is always truthy in JS, so
JS truthiness of `data` coincides with `Option.isSome`. -/
structure FetchResult (δ : Type) where
  success : Bool
  data : Option δ
  error : Option String
deriving DecidableEq

/-- One invocation of the wrapped asynchronous operation either resolves to
a `{success, data, error}` result or throws (rejects) with a message. -/
inductive FetchOutcome (δ : Type) where
  | ok (r : FetchResult δ)
  | threw (msg : String)
deriving DecidableEq

/-- The reactive state of the `useCachedData` hook: the `data`, `loading`
and `error` `useState` cells plus the `lastFetchTime` and `cachedData`
`useRef` cells. -/
structure CachedFetchState (δ : Type) where
  data : Option δ
  loading : Bool
  error : Option String
  lastFetchTime : Int
  cachedData : Option δ
deriving DecidableEq

/-- State of the hook right after construction: `useState(null)`,
`useState(true)`, `useState(null)`, `useRef(0)`, `useRef(null)`. -/
def initialState {δ : Type} : CachedFetchState δ :=
  { data := none, loading := true, error := none, lastFetchTime := 0, cachedData := none }

/-- `result.error || 'Failed to fetch data'`: a missing or empty (falsy)
error string is replaced by the default message; this becomes the thrown
`Error`'s message. -/
def errMsg : Option String → String
  | some s => if s = "" then "Failed to fetch data" else s
  | none => "Failed to fetch data"

/-- Embedding of `fetchData(force)` from `useCachedData`.  `now` is the
value of `Date.now()` at the start of the call and `op` is the outcome the
wrapped operation would produce if invoked.  Returns the value the promise
resolves to, the state after the call, and whether the wrapped operation
was actually invoked. -/
def fetchData {δ : Type} (cacheTime : Int) (s : CachedFetchState δ) (force : Bool)
    (now : Int) (op : FetchOutcome δ) : Option δ × CachedFetchState δ × Bool :=
  if !force && s.cachedData.isSome && decide (now - s.lastFetchTime < cacheTime) then
    (s.cachedData, { s with data := s.cachedData, loading := false }, false)
  else
    match op with
    | .ok r =>
      if r.success then
        (r.data, { s with data := r.data, loading := false, error := none,
                          cachedData := r.data, lastFetchTime := now }, true)
      else
        (none, { s with loading := false, error := some (errMsg r.error) }, true)
    | .threw m =>
        (none, { s with loading := false, error := some m }, true)

/-- `refresh()` is `fetchData(true)`. -/
def refresh {δ : Type} (cacheTime : Int) (s : CachedFetchState δ) (now : Int)
    (op : FetchOutcome δ) : Option δ × CachedFetchState δ × Bool :=
  fetchData cacheTime s true now op

/-- `invalidateCache()`: clears the cached slot and resets the timestamp. -/
def invalidateCache {δ : Type} (s : CachedFetchState δ) : CachedFetchState δ :=
  { s with cachedData := none, lastFetchTime := 0 }

/-! ### The `DataCache` class -/

/-- The `DataCache` class: two `Map`s, one from keys to values and one from
keys to expiry timestamps. -/
structure DataCache (α : Type) where
  cache : String → Option α
  timestamps : String → Option Nat

/-- The state built by the constructor: two empty maps. -/
def DataCache.empty {α : Type} : DataCache α :=
  ⟨fun _ => none, fun _ => none⟩

/-- `set(key, data, ttl)`: store the value and record
`expiresAt = Date.now() + ttl` for the key, overwriting both entries. -/
def DataCache.set {α : Type} (c : DataCache α) (now : Nat) (key : String) (data : α)
    (ttl : Nat) : DataCache α :=
  ⟨fun k => if k = key then some data else c.cache k,
   fun k => if k = key then some (now + ttl) else c.timestamps k⟩

/-- `this.cache.delete(key); this.timestamps.delete(key)`. -/
def DataCache.deleteKey {α : Type} (c : DataCache α) (key : String) : DataCache α :=
  ⟨fun k => if k = key then none else c.cache k,
   fun k => if k = key then none else c.timestamps k⟩

/-- `get(key)`: if the stored expiry is falsy (absent, or the number `0`)
or strictly in the past, evict the entry from both maps and return `null`;
otherwise return the stored value.  Returns the value and the state after
the call. -/
def DataCache.get {α : Type} (c : DataCache α) (now : Nat) (key : String) :
    Option α × DataCache α :=
  match c.timestamps key with
  | none => (none, c.deleteKey key)
  | some expiry =>
    if expiry = 0 || decide (now > expiry) then (none, c.deleteKey key)
    else (c.cache key, c)

/-- `invalidate(key)`: unconditional removal from both maps. -/
def DataCache.invalidate {α : Type} (c : DataCache α) (key : String) : DataCache α :=
  c.deleteKey key

/-- `clear()`: empty both maps. -/
def DataCache.clear {α : Type} (_ : DataCache α) : DataCache α :=
  DataCache.empty

/-- One operation of the `DataCache` interface, with the value of
`Date.now()` at the moment the time-dependent operations run. -/
inductive CacheOp (α : Type) where
  | set (now : Nat) (key : String) (data : α) (ttl : Nat)
  | get (now : Nat) (key : String)
  | invalidate (key : String)
  | clear

/-- State reached after performing one operation. -/
def applyOp {α : Type} (c : DataCache α) : CacheOp α → DataCache α
  | .set now key data ttl => c.set now key data ttl
  | .get now key => (c.get now key).2
  | .invalidate key => c.invalidate key
  | .clear => c.clear

/-- State reached after a finite sequence of operations. -/
def runOps {α : Type} (c : DataCache α) (ops : List (CacheOp α)) : DataCache α :=
  ops.foldl applyOp c

/-- The two maps of a `DataCache` hold exactly the same keys. -/
def inSync {α : Type} (c : DataCache α) : Prop :=
  ∀ k, (c.cache k).isSome ↔ (c.timestamps k).isSome

theorem deleteKey_inSync {α : Type} {c : DataCache α} (h : inSync c) (key : String) :
    inSync (c.deleteKey key) := by
  intro k
  by_cases hk : k = key <;> simp [DataCache.deleteKey, hk, h k]

theorem applyOp_inSync {α : Type} {c : DataCache α} (h : inSync c) (op : CacheOp α) :
    inSync (applyOp c op) := by
  cases op with
  | set now key data ttl =>
    intro k
    by_cases hk : k = key <;> simp [applyOp, DataCache.set, hk, h k]
  | get now key =>
    show inSync (c.get now key).2
    unfold DataCache.get
    cases hts : c.timestamps key with
    | none => simp only [hts]; exact deleteKey_inSync h key
    | some expiry =>
      simp only [hts]
      split
      · exact deleteKey_inSync h key
      · exact h
  | invalidate key => exact deleteKey_inSync h key
  | clear => intro k; simp [applyOp, DataCache.clear, DataCache.empty]

theorem runOps_inSync {α : Type} (ops : List (CacheOp α)) :
    ∀ c : DataCache α, inSync c → inSync (runOps c ops) := by
  induction ops with
  | nil => exact fun _ h => h
  | cons op rest ih => exact fun c h => ih _ (applyOp_inSync h op)

/-- Claim C10: after any finite sequence of `set`, `get`, `invalidate` and
`clear` operations starting from the constructor state, the value map
(`cache`) and the expiry map (`timestamps`) of a `DataCache` contain
exactly the same set of keys. -/
theorem C10_cache_maps_in_sync {α : Type} (ops : List (CacheOp α)) :
    inSync (runOps DataCache.empty ops) :=
  runOps_inSync ops _ (fun k => by simp [DataCache.empty])

/-! ### Claims about the cached-fetch controller -/

/-- Claim C1 as stated is false: when the wrapped operation fails, nothing
is cached, so two `fetch(force=false)` calls 1 ms apart (well within the
30000 ms `cacheTime`, with no intervening `invalidateCache`/`refresh`)
each invoke the underlying operation — two invocations, not at most one. -/
theorem C1_counterexample :
    (fetchData 30000 (initialState (δ := Nat)) false 0
        (.ok ⟨false, none, none⟩)).2.2 = true ∧
    (fetchData 30000
        (fetchData 30000 (initialState (δ := Nat)) false 0
          (.ok ⟨false, none, none⟩)).2.1 false 1
        (.ok ⟨false, none, none⟩)).2.2 = true := by
  exact ⟨rfl, rfl⟩

/-- Claim C1, amended: starting from a state with no cached value (the
state after construction or after `invalidateCache`), if the wrapped
operation returns success with non-null data when invoked, then two
`fetch(force=false)` calls within `cacheTime` of each other and with no
intervening `invalidateCache`/`refresh` cause exactly one (hence at most
one) invocation of the underlying operation, and both calls resolve to the
same data. -/
theorem C1_fetch_twice_amended {δ : Type} (cacheTime t1 t2 : Int)
    (s0 : CachedFetchState δ) (o1 o2 : FetchOutcome δ) (r1 : FetchResult δ)
    (hcache : s0.cachedData = none)
    (hfresh : t2 - t1 < cacheTime)
    (ho1 : o1 = .ok r1) (hs : r1.success = true) (hd : r1.data.isSome = true) :
    ((if (fetchData cacheTime s0 false t1 o1).2.2 then 1 else 0) +
      (if (fetchData cacheTime
            (fetchData cacheTime s0 false t1 o1).2.1 false t2 o2).2.2 then 1 else 0)
        ≤ 1) ∧
    (fetchData cacheTime s0 false t1 o1).1 =
      (fetchData cacheTime (fetchData cacheTime s0 false t1 o1).2.1 false t2 o2).1 := by
  subst ho1
  have h1 : fetchData cacheTime s0 false t1 (.ok r1) =
      (r1.data, { s0 with data := r1.data, loading := false, error := none,
                          cachedData := r1.data, lastFetchTime := t1 }, true) := by
    unfold fetchData
    rw [if_neg (by simp [hcache])]
    simp [hs]
  rw [h1]
  have h2 : fetchData cacheTime
      { s0 with data := r1.data, loading := false, error := none,
                cachedData := r1.data, lastFetchTime := t1 } false t2 o2 =
      (r1.data, { s0 with data := r1.data, loading := false, error := none,
                          cachedData := r1.data, lastFetchTime := t1 }, false) := by
    unfold fetchData
    rw [if_pos (by simp [hd, hfresh])]
  rw [h2]
  exact ⟨by norm_num, rfl⟩

/-- Witness for `C1_fetch_twice_amended` at a concrete instance. -/
theorem C1_witness :
    ((if (fetchData 30000 (initialState (δ := Nat)) false 0
            (.ok ⟨true, some 7, none⟩)).2.2 then 1 else 0) +
      (if (fetchData 30000
            (fetchData 30000 (initialState (δ := Nat)) false 0
              (.ok ⟨true, some 7, none⟩)).2.1 false 1
            (.ok ⟨true, some 8, none⟩)).2.2 then 1 else 0)
        ≤ 1) ∧
    (fetchData 30000 (initialState (δ := Nat)) false 0
        (.ok ⟨true, some 7, none⟩)).1 =
      (fetchData 30000
        (fetchData 30000 (initialState (δ := Nat)) false 0
          (.ok ⟨true, some 7, none⟩)).2.1 false 1
        (.ok ⟨true, some 8, none⟩)).1 :=
  C1_fetch_twice_amended 30000 0 1 initialState _ _ ⟨true, some 7, none⟩
    rfl (by decide) rfl rfl rfl

/-- Claim C2: when the wrapped operation fails — it resolves to
`success=false` (whose message is `result.error || 'Failed to fetch data'`)
or it throws with message `msg` — and the call actually reaches the fetch
path (the freshness guard does not short-circuit), `fetchData` resolves to
the typed value `null` rather than propagating an exception, records the
failure message in `error`, clears `loading`, and leaves `data`, the cached
value and its timestamp exactly as they were. -/
theorem C2_failure_handling {δ : Type} (cacheTime : Int) (s : CachedFetchState δ)
    (force : Bool) (now : Int) (op : FetchOutcome δ) (msg : String)
    (hmiss : (!force && s.cachedData.isSome && decide (now - s.lastFetchTime < cacheTime))
        = false)
    (hfail : (∃ r, op = .ok r ∧ r.success = false ∧ msg = errMsg r.error) ∨
      op = .threw msg) :
    fetchData cacheTime s force now op =
      (none, { s with loading := false, error := some msg }, true) := by
  unfold fetchData
  rw [if_neg (by simp [hmiss])]
  rcases hfail with ⟨r, hop, hrs, hmsg⟩ | hop
  · subst hop; subst hmsg; simp [hrs]
  · subst hop; rfl

/-- Witness for `C2_failure_handling` at a concrete instance. -/
theorem C2_witness :
    fetchData 30000 (initialState (δ := Nat)) false 50 (.ok ⟨false, none, some "boom"⟩) =
      (none, { initialState (δ := Nat) with loading := false, error := some "boom" }, true) :=
  C2_failure_handling 30000 initialState false 50 (.ok ⟨false, none, some "boom"⟩) "boom"
    (by decide) (Or.inl ⟨⟨false, none, some "boom"⟩, rfl, rfl, by decide⟩)

/-- Claim C6 as stated is false: a `refresh()` whose underlying operation
fails does invoke the operation but leaves the stored cache timestamp
unchanged (`0` here, although the call happened at time `1000`). -/
theorem C6_counterexample :
    (refresh 30000 (initialState (δ := Nat)) 1000 (.ok ⟨false, none, none⟩)).2.2 = true ∧
    (refresh 30000 (initialState (δ := Nat)) 1000
        (.ok ⟨false, none, none⟩)).2.1.lastFetchTime = 0 :=
  ⟨rfl, rfl⟩

/-- Claim C6, amended: every `refresh()` call invokes the underlying fetch
operation, no matter how fresh the cached value is; when the operation
resolves successfully, the stored cache timestamp is updated to the time of
the call (on failure it is left unchanged, see the counterexample). -/
theorem C6_refresh_amended {δ : Type} (cacheTime now : Int) (s : CachedFetchState δ)
    (op : FetchOutcome δ) :
    (refresh cacheTime s now op).2.2 = true ∧
    (∀ r : FetchResult δ, op = .ok r → r.success = true →
      (refresh cacheTime s now op).2.1.lastFetchTime = now) := by
  constructor
  · unfold refresh fetchData
    rw [if_neg (by simp)]
    cases op with
    | ok r => by_cases hr : r.success = true <;> simp [hr]
    | threw m => rfl
  · intro r hop hrs
    subst hop
    unfold refresh fetchData
    rw [if_neg (by simp)]
    simp [hrs]

/-- Witness for `C6_refresh_amended` at a concrete instance. -/
theorem C6_witness :
    (refresh 30000 (initialState (δ := Nat)) 1000 (.ok ⟨true, some 3, none⟩)).2.2 = true ∧
    (refresh 30000 (initialState (δ := Nat)) 1000
        (.ok ⟨true, some 3, none⟩)).2.1.lastFetchTime = 1000 := by
  have h := C6_refresh_amended 30000 1000 (initialState (δ := Nat)) (.ok ⟨true, some 3, none⟩)
  exact ⟨h.1, h.2 ⟨true, some 3, none⟩ rfl rfl⟩

/-! ### Claims about the `DataCache` class -/

/-- Claim C3 as stated is false: after `set(key, value, ttl=0)` at time 5,
a `get(key)` still at time 5 returns the value, not absent — the code
evicts only when `Date.now()` is strictly past `expiresAt` (or when
`expiresAt` is the falsy number `0`). -/
theorem C3_counterexample :
    ((DataCache.empty.set 5 "k" (42 : Nat) 0).get 5 "k").1 = some 42 := by
  decide

/-- Claim C3, amended: after `set(key, value, ttl)`, once the current time
is strictly past `expiresAt = setTime + ttl` — or immediately in the
special case `expiresAt = 0` (with `ttl = 0` at time `0`), since `0` is
falsy — `get(key)` returns absent and removes the entry from both maps, and
a subsequent `get(key)` at any time is still absent without re-insertion.
(For `ttl = 0` at a nonzero time, a `get` in the same millisecond still
returns the value, as the counterexample shows.) -/
theorem C3_expiry_amended {α : Type} (c : DataCache α) (t ttl t' t'' : Nat)
    (key : String) (v : α) (h : t + ttl < t' ∨ t + ttl = 0) :
    ((c.set t key v ttl).get t' key).1 = none ∧
    ((c.set t key v ttl).get t' key).2.cache key = none ∧
    ((c.set t key v ttl).get t' key).2.timestamps key = none ∧
    (((c.set t key v ttl).get t' key).2.get t'' key).1 = none := by
  have hcond : (decide (t + ttl = 0) || decide (t' > t + ttl)) = true := by
    rcases h with h | h
    · simp [h]
    · simp [h]
  have hg : (c.set t key v ttl).get t' key =
      (none, (c.set t key v ttl).deleteKey key) := by
    simp [DataCache.get, DataCache.set, hcond]
    omega
  rw [hg]
  refine ⟨rfl, by simp [DataCache.deleteKey], by simp [DataCache.deleteKey], ?_⟩
  unfold DataCache.get
  simp [DataCache.deleteKey]

/-- Witness for `C3_expiry_amended` at a concrete instance. -/
theorem C3_witness :
    ((DataCache.empty.set 5 "k" (42 : Nat) 0).get 6 "k").1 = none ∧
    ((DataCache.empty.set 5 "k" (42 : Nat) 0).get 6 "k").2.cache "k" = none ∧
    ((DataCache.empty.set 5 "k" (42 : Nat) 0).get 6 "k").2.timestamps "k" = none ∧
    (((DataCache.empty.set 5 "k" (42 : Nat) 0).get 6 "k").2.get 99 "k").1 = none :=
  C3_expiry_amended DataCache.empty 5 0 6 99 "k" 42 (Or.inl (by decide))

/-! ### String helpers used by the derived-view builder

`jsToLower` and `jsTrim` embed `String.prototype.toLowerCase` and
`String.prototype.trim` as character-list transformations (the records in
this application use ASCII names, where `Char.toLower` and
`Char.isWhitespace` agree with the JavaScript built-ins). -/

/-- `s.toLowerCase()`. -/
def jsToLower (s : String) : String :=
  ⟨s.data.map Char.toLower⟩

/-- `s.trim()`: remove leading and trailing whitespace. -/
def jsTrim (s : String) : String :=
  ⟨((s.data.dropWhile Char.isWhitespace).reverse.dropWhile Char.isWhitespace).reverse⟩

/-- `needle` occurs contiguously inside `hay`: `hay.includes(needle)`. -/
def jsIncludes (hay needle : String) : Bool :=
  decide (needle.data <:+: hay.data)

/-- Modelled from the spec: `a.localeCompare(b) ≤ 0` for the browser's
default collator, which is missing from the repository (a host API).  The
spec relies only on its primary, case-insensitive strength ("sorted
ascending by category name (case-insensitive)"): base letters are compared
first and the original spellings only break ties, so we model it as
comparison of the lowercased texts refined by the literal texts. -/
def localeLe (a b : String) : Bool :=
  if (jsToLower a).data = (jsToLower b).data then decide (a.data ≤ b.data)
  else decide ((jsToLower a).data < (jsToLower b).data)

theorem localeLe_trans (a b c : String) (hab : localeLe a b = true)
    (hbc : localeLe b c = true) : localeLe a c = true := by
  unfold localeLe at *
  by_cases h1 : (jsToLower a).data = (jsToLower b).data <;>
    by_cases h2 : (jsToLower b).data = (jsToLower c).data
  · rw [if_pos h1] at hab
    rw [if_pos h2] at hbc
    rw [if_pos (h1.trans h2), decide_eq_true_iff]
    exact le_trans (by simpa using hab) (by simpa using hbc)
  · rw [if_neg h2] at hbc
    have hlt : (jsToLower b).data < (jsToLower c).data := by simpa using hbc
    have hac : (jsToLower a).data < (jsToLower c).data := h1 ▸ hlt
    rw [if_neg (ne_of_lt hac), decide_eq_true_iff]
    exact hac
  · rw [if_neg h1] at hab
    have hlt : (jsToLower a).data < (jsToLower b).data := by simpa using hab
    have hac : (jsToLower a).data < (jsToLower c).data := h2 ▸ hlt
    rw [if_neg (ne_of_lt hac), decide_eq_true_iff]
    exact hac
  · rw [if_neg h1] at hab
    rw [if_neg h2] at hbc
    have hac : (jsToLower a).data < (jsToLower c).data :=
      lt_trans (by simpa using hab) (by simpa using hbc)
    rw [if_neg (ne_of_lt hac), decide_eq_true_iff]
    exact hac

theorem localeLe_total (a b : String) : (localeLe a b || localeLe b a) = true := by
  unfold localeLe
  by_cases h : (jsToLower a).data = (jsToLower b).data
  · rw [if_pos h, if_pos h.symm]
    rcases le_total a.data b.data with hle | hle <;> simp [hle]
  · rw [if_neg h, if_neg (Ne.symm h)]
    rcases lt_or_gt_of_ne h with hlt | hlt <;> simp [hlt]

theorem localeLe_lower_le (a b : String) (h : localeLe a b = true) :
    (jsToLower a).data ≤ (jsToLower b).data := by
  unfold localeLe at h
  by_cases h1 : (jsToLower a).data = (jsToLower b).data
  · exact le_of_eq h1
  · rw [if_neg h1, decide_eq_true_iff] at h
    exact le_of_lt h

/-! ### Insertion-ordered grouping

A JavaScript `reduce` into a plain object whose keys are later listed by
`Object.entries`/`Object.keys` is an insertion-ordered association list:
the first record with a new key appends the key at the end, later records
with the same key push onto that key's array. -/

/-- Push `d` onto the entry for `key`, or append a new entry at the end. -/
def insertGrouped {δ : Type} (key : String) (d : δ) :
    List (String × List δ) → List (String × List δ)
  | [] => [(key, [d])]
  | (k, ds) :: rest =>
    if k = key then (k, ds ++ [d]) :: rest
    else (k, ds) :: insertGrouped key d rest

/-- `l.reduce((acc, d) => { (acc[key d] ||= []).push(d); return acc }, {})`
with the object's insertion-ordered key listing. -/
def groupByOrdered {δ : Type} (key : δ → String) (l : List δ) :
    List (String × List δ) :=
  l.foldl (fun acc d => insertGrouped (key d) d acc) []

/-- The keys of `l` not in `seen`, listed at their first occurrence. -/
def firstOccurFrom : List String → List String → List String
  | _, [] => []
  | seen, k :: ks =>
    if k ∈ seen then firstOccurFrom seen ks
    else k :: firstOccurFrom (k :: seen) ks

/-- `acc[k]`, reading an association list. -/
def assocFind {α : Type} (k : String) : List (String × α) → Option α
  | [] => none
  | (k', v) :: rest => if k' = k then some v else assocFind k rest

theorem mem_firstOccurFrom (l : List String) :
    ∀ seen k, k ∈ firstOccurFrom seen l ↔ k ∈ l ∧ k ∉ seen := by
  induction l with
  | nil => intro seen k; simp [firstOccurFrom]
  | cons a l ih =>
    intro seen k
    unfold firstOccurFrom
    by_cases ha : a ∈ seen
    · rw [if_pos ha, ih]
      constructor
      · exact fun ⟨hl, hs⟩ => ⟨List.mem_cons_of_mem a hl, hs⟩
      · rintro ⟨hl, hs⟩
        rcases List.mem_cons.1 hl with rfl | hl
        · exact absurd ha hs
        · exact ⟨hl, hs⟩
    · rw [if_neg ha]
      constructor
      · intro hk
        rcases List.mem_cons.1 hk with rfl | hk
        · exact ⟨List.mem_cons_self k l, ha⟩
        · rcases (ih (a :: seen) k).1 hk with ⟨hl, hs⟩
          exact ⟨List.mem_cons_of_mem a hl,
            fun hsk => hs (List.mem_cons_of_mem a hsk)⟩
      · rintro ⟨hl, hs⟩
        rcases List.mem_cons.1 hl with rfl | hl
        · exact List.mem_cons_self k _
        · by_cases hka : k = a
          · subst hka; exact List.mem_cons_self k _
          · exact List.mem_cons_of_mem a
              ((ih (a :: seen) k).2 ⟨hl, by simp [hka, hs]⟩)

theorem nodup_firstOccurFrom (l : List String) :
    ∀ seen, (firstOccurFrom seen l).Nodup := by
  induction l with
  | nil => intro seen; simp [firstOccurFrom]
  | cons a l ih =>
    intro seen
    unfold firstOccurFrom
    by_cases ha : a ∈ seen
    · rw [if_pos ha]; exact ih seen
    · rw [if_neg ha]
      refine List.Nodup.cons ?_ (ih (a :: seen))
      intro hmem
      exact ((mem_firstOccurFrom l (a :: seen) a).1 hmem).2 (List.mem_cons_self a seen)

theorem firstOccurFrom_congr (l : List String) :
    ∀ s1 s2, (∀ k, k ∈ s1 ↔ k ∈ s2) → firstOccurFrom s1 l = firstOccurFrom s2 l := by
  induction l with
  | nil => intro s1 s2 _; rfl
  | cons a l ih =>
    intro s1 s2 h
    unfold firstOccurFrom
    by_cases ha : a ∈ s1
    · rw [if_pos ha, if_pos ((h a).1 ha)]
      exact ih s1 s2 h
    · rw [if_neg ha, if_neg (fun hx => ha ((h a).2 hx))]
      have : ∀ k, k ∈ a :: s1 ↔ k ∈ a :: s2 := by
        intro k; simp [h k]
      rw [ih (a :: s1) (a :: s2) this]

theorem firstOccurFrom_concat (l : List String) :
    ∀ seen k0, firstOccurFrom seen (l ++ [k0]) =
      firstOccurFrom seen l ++ (if k0 ∈ seen ∨ k0 ∈ l then [] else [k0]) := by
  induction l with
  | nil =>
    intro seen k0
    unfold firstOccurFrom
    by_cases h : k0 ∈ seen
    · simp [firstOccurFrom, h]
    · simp [firstOccurFrom, h]
  | cons a l ih =>
    intro seen k0
    show firstOccurFrom seen (a :: (l ++ [k0])) = _
    unfold firstOccurFrom
    by_cases ha : a ∈ seen
    · have hc : (k0 ∈ seen ∨ k0 ∈ l) ↔ (k0 ∈ seen ∨ k0 ∈ a :: l) := by
        constructor
        · rintro (h | h)
          · exact Or.inl h
          · exact Or.inr (List.mem_cons_of_mem a h)
        · rintro (h | h)
          · exact Or.inl h
          · rcases List.mem_cons.1 h with rfl | h
            · exact Or.inl ha
            · exact Or.inr h
      rw [if_pos ha, ih seen k0, if_congr hc rfl rfl, if_pos ha]
    · have hc : (k0 ∈ a :: seen ∨ k0 ∈ l) ↔ (k0 ∈ seen ∨ k0 ∈ a :: l) := by
        simp [or_comm, or_left_comm, or_assoc]
      rw [if_neg ha, ih (a :: seen) k0, if_congr hc rfl rfl, if_neg ha,
        List.cons_append]

theorem insertGrouped_not_mem {δ : Type} (f : String → List δ) (d : δ) (k0 : String)
    (ks : List String) (h : k0 ∉ ks) :
    insertGrouped k0 d (ks.map fun k => (k, f k)) =
      (ks.map fun k => (k, f k)) ++ [(k0, [d])] := by
  induction ks with
  | nil => rfl
  | cons a ks ih =>
    have hne : a ≠ k0 := fun hx => h (hx ▸ List.mem_cons_self a ks)
    simp only [List.map_cons, insertGrouped, if_neg hne, List.cons_append]
    rw [ih (fun hx => h (List.mem_cons_of_mem a hx))]

theorem insertGrouped_mem {δ : Type} (f : String → List δ) (d : δ) (k0 : String)
    (ks : List String) (hmem : k0 ∈ ks) (hnd : ks.Nodup) :
    insertGrouped k0 d (ks.map fun k => (k, f k)) =
      ks.map fun k => (k, if k = k0 then f k ++ [d] else f k) := by
  induction ks with
  | nil => cases hmem
  | cons a ks ih =>
    rcases List.mem_cons.1 hmem with rfl | hmem
    · have hnotin : k0 ∉ ks := (List.nodup_cons.1 hnd).1
      rw [List.map_cons, List.map_cons]
      show insertGrouped k0 d ((k0, f k0) :: _) = _
      unfold insertGrouped
      rw [if_pos rfl, if_pos rfl]
      congr 1
      refine (List.map_congr_left ?_).symm
      intro k hk
      have : k ≠ k0 := fun hx => hnotin (hx ▸ hk)
      rw [if_neg this]
    · have hne : a ≠ k0 := by
        rintro rfl
        exact (List.nodup_cons.1 hnd).1 hmem
      simp only [List.map_cons, insertGrouped, if_neg hne]
      rw [ih hmem (List.nodup_cons.1 hnd).2]

/-- An object built by grouping `reduce` lists, under `Object.entries`, the
distinct keys in first-occurrence order, each paired with the sub-sequence
of records having exactly that key. -/
theorem groupByOrdered_eq {δ : Type} (key : δ → String) (l : List δ) :
    groupByOrdered key l =
      (firstOccurFrom [] (l.map key)).map
        (fun k => (k, l.filter fun d => decide (key d = k))) := by
  induction l using List.reverseRecOn with
  | nil => rfl
  | append_singleton l d ih =>
    have hstep : groupByOrdered key (l ++ [d]) =
        insertGrouped (key d) d (groupByOrdered key l) := by
      unfold groupByOrdered
      rw [List.foldl_append]
      rfl
    rw [hstep, ih, List.map_append, List.map_singleton, firstOccurFrom_concat]
    by_cases hmem : key d ∈ l.map key
    · rw [insertGrouped_mem _ _ _ _
        ((mem_firstOccurFrom _ _ _).2 ⟨hmem, List.not_mem_nil _⟩)
        (nodup_firstOccurFrom _ _)]
      rw [if_pos (Or.inr hmem), List.append_nil]
      refine List.map_congr_left ?_
      intro k _
      by_cases hk : k = key d
      · subst hk
        simp [List.filter_append]
      · rw [if_neg hk]
        have hdk : ¬key d = k := fun hx => hk hx.symm
        have : decide (key d = k) = false := by simp [hdk]
        simp [List.filter_append, this]
    · rw [insertGrouped_not_mem _ _ _ _
        (fun hx => hmem ((mem_firstOccurFrom _ _ _).1 hx).1)]
      rw [if_neg (by simp [hmem]), List.map_append]
      congr 1
      · refine List.map_congr_left ?_
        intro k hk
        have hkmem : k ∈ l.map key := ((mem_firstOccurFrom _ _ _).1 hk).1
        have hkne : decide (key d = k) = false := by
          have : key d ≠ k := fun hx => hmem (hx ▸ hkmem)
          simp [this]
        simp [List.filter_append, hkne]
      · have h0 : l.filter (fun x => decide (key x = key d)) = [] := by
          rw [List.filter_eq_nil_iff]
          intro a ha
          simp only [decide_eq_true_iff]
          exact fun hx => hmem (List.mem_map.2 ⟨a, ha, hx⟩)
        simp [List.filter_append, h0]

theorem assocFind_map {α : Type} (K : List String) (f : String → α) (k : String) :
    assocFind k (K.map fun x => (x, f x)) = if k ∈ K then some (f k) else none := by
  induction K with
  | nil => simp [assocFind]
  | cons a K ih =>
    simp only [List.map_cons, assocFind]
    by_cases ha : a = k
    · subst ha
      rw [if_pos rfl, if_pos (List.mem_cons_self a K)]
    · rw [if_neg ha, ih]
      by_cases hk : k ∈ K
      · rw [if_pos hk, if_pos (List.mem_cons_of_mem a hk)]
      · have hka : ¬k = a := fun hx => ha hx.symm
        rw [if_neg hk, if_neg (by simp [hka, hk])]

/-! ### The derived-view builder

Calendar model: timestamps are milliseconds; `new Date(y, m, d)` — the
record's local midnight — is modelled as the start of the timestamp's
uniform 86400000 ms day (`dayStart`), and `setDate(getDate() - n)` as
subtracting `n` such days.  Records and `now` are interpreted in the same
(DST-free) local clock. -/

def msPerDay : Int := 86400000

/-- Midnight of the calendar day containing `t`. -/
def dayStart (t : Int) : Int := msPerDay * (t.fdiv msPerDay)

/-- `getTimelineGroup(dateString)` (identical in `StoredItemsPage` and the
documents page): bucket a record's `created_at` relative to `now`. -/
def getTimelineGroup (now created : Int) : String :=
  let today := dayStart now
  let yesterday := today - msPerDay
  let lastWeek := today - 7 * msPerDay
  let itemDate := dayStart created
  if itemDate = today then "Today"
  else if itemDate = yesterday then "Yesterday"
  else if itemDate ≥ lastWeek then "Last 7 Days"
  else "Earlier"

/-- The classification rules in the words of the specification (same
calendar day as today, the previous day, at most seven days back,
otherwise earlier), for comparison with the code's `getTimelineGroup`. -/
def specTimelineLabel (now created : Int) : String :=
  if dayStart created = dayStart now then "Today"
  else if dayStart created = dayStart now - msPerDay then "Yesterday"
  else if dayStart created ≥ dayStart now - 7 * msPerDay then "Last 7 Days"
  else "Earlier"

/-- A stored item: `{id, item_name, location, category, created_at}`. -/
structure Item where
  id : Nat
  item_name : String
  location : String
  category : Option String
  created_at : Int
deriving DecidableEq

/-- A stored document:
`{id, document_name, document_type, notes, created_at}`. -/
structure Doc where
  id : Nat
  document_name : String
  document_type : Option String
  notes : Option String
  created_at : Int
deriving DecidableEq

/-- `array.sort((a, b) => new Date(b.created_at) - new Date(a.created_at))`:
stable sort, newest first. -/
def sortByNewest {δ : Type} (createdAt : δ → Int) (l : List δ) : List δ :=
  l.mergeSort (fun a b => decide (createdAt b ≤ createdAt a))

/-- The fixed emission order of the timeline view. -/
def timelineOrder : List String := ["Today", "Yesterday", "Last 7 Days", "Earlier"]

/-- The `groups` object of the `timelineGroups` memo after the in-place
sorting pass: records grouped by `getTimelineGroup`, every group sorted
newest-first.  `createdAt` abstracts the `created_at` field of the record
type. -/
def sortedGroups {δ : Type} (createdAt : δ → Int) (now : Int) (l : List δ) :
    List (String × List δ) :=
  (groupByOrdered (fun i => getTimelineGroup now (createdAt i)) l).map
    (fun p => (p.1, sortByNewest createdAt p.2))

/-- The `timelineGroups` memo (identical in `StoredItemsPage` over items and
in the documents page over the filtered documents): group by
`getTimelineGroup`, sort every group newest-first, then emit in the fixed
order the keys whose group exists and is non-empty
(`groups[key]?.length > 0`), each paired with its group. -/
def timelineGroups {δ : Type} (createdAt : δ → Int) (now : Int) (l : List δ) :
    List (String × List δ) :=
  if l.isEmpty then []
  else
    (timelineOrder.filter fun k =>
      match assocFind k (sortedGroups createdAt now l) with
      | some g => decide (0 < g.length)
      | none => false).map
      (fun k => (k, (assocFind k (sortedGroups createdAt now l)).getD []))

theorem timelineGroups_eq {δ : Type} (createdAt : δ → Int) (now : Int) (l : List δ)
    (hne : l.isEmpty = false) :
    timelineGroups createdAt now l =
      (timelineOrder.filter fun k =>
        !(l.filter fun i => decide (getTimelineGroup now (createdAt i) = k)).isEmpty).map
      (fun k =>
        (k, sortByNewest createdAt
          (l.filter fun i => decide (getTimelineGroup now (createdAt i) = k)))) := by
  unfold timelineGroups
  rw [if_neg (by simp [hne])]
  have hgroups :
      sortedGroups createdAt now l =
      (firstOccurFrom [] (l.map fun i => getTimelineGroup now (createdAt i))).map
        (fun k => (k, sortByNewest createdAt
          (l.filter fun i => decide (getTimelineGroup now (createdAt i) = k)))) := by
    unfold sortedGroups
    rw [groupByOrdered_eq, List.map_map]
    rfl
  rw [hgroups]
  have hfind : ∀ k,
      assocFind k ((firstOccurFrom [] (l.map fun i => getTimelineGroup now (createdAt i))).map
        (fun k => (k, sortByNewest createdAt
          (l.filter fun i => decide (getTimelineGroup now (createdAt i) = k))))) =
      if k ∈ firstOccurFrom [] (l.map fun i => getTimelineGroup now (createdAt i)) then
        some (sortByNewest createdAt
          (l.filter fun i => decide (getTimelineGroup now (createdAt i) = k)))
      else none := fun k => assocFind_map _ _ k
  have hmemiff : ∀ k,
      (k ∈ firstOccurFrom [] (l.map fun i => getTimelineGroup now (createdAt i))) ↔
      ¬(l.filter fun i => decide (getTimelineGroup now (createdAt i) = k)) = [] := by
    intro k
    rw [mem_firstOccurFrom]
    simp only [List.mem_map, List.not_mem_nil, not_false_iff, and_true]
    constructor
    · rintro ⟨i, hi, hlab⟩ hnil
      have : i ∈ l.filter fun i => decide (getTimelineGroup now (createdAt i) = k) :=
        List.mem_filter.2 ⟨hi, by simp [hlab]⟩
      rw [hnil] at this
      exact List.not_mem_nil i this
    · intro hnil
      rcases List.exists_mem_of_ne_nil _ hnil with ⟨i, hi⟩
      rcases List.mem_filter.1 hi with ⟨hil, hlab⟩
      exact ⟨i, hil, by simpa using hlab⟩
  have hlen : ∀ k, (sortByNewest createdAt
      (l.filter fun i => decide (getTimelineGroup now (createdAt i) = k))).length =
      (l.filter fun i => decide (getTimelineGroup now (createdAt i) = k)).length := by
    intro k
    exact (List.mergeSort_perm _ _).length_eq
  have hcond : ∀ k ∈ timelineOrder,
      (match assocFind k ((firstOccurFrom []
          (l.map fun i => getTimelineGroup now (createdAt i))).map
        (fun k => (k, sortByNewest createdAt
          (l.filter fun i => decide (getTimelineGroup now (createdAt i) = k))))) with
        | some g => decide (0 < g.length)
        | none => false) =
      !(l.filter fun i => decide (getTimelineGroup now (createdAt i) = k)).isEmpty := by
    intro k _
    rw [hfind k]
    by_cases hk : k ∈ firstOccurFrom [] (l.map fun i => getTimelineGroup now (createdAt i))
    · rw [if_pos hk]
      have hnil := (hmemiff k).1 hk
      have : (l.filter fun i => decide (getTimelineGroup now (createdAt i) = k)).isEmpty
          = false := by
        rw [List.isEmpty_eq_false_iff_exists_mem]
        exact List.exists_mem_of_ne_nil _ hnil
      rw [this]
      simp only [hlen k, Bool.not_false, decide_eq_true_iff]
      rcases List.exists_mem_of_ne_nil _ hnil with ⟨i, hi⟩
      exact List.length_pos_of_mem hi
    · rw [if_neg hk]
      have : (l.filter fun i => decide (getTimelineGroup now (createdAt i) = k)) = [] := by
        by_contra hc
        exact hk ((hmemiff k).2 hc)
      rw [this]
      rfl
  rw [List.filter_congr hcond]
  refine List.map_congr_left ?_
  intro k hk
  have hckond := (List.mem_filter.1 hk).2
  have hne2 : ¬(l.filter fun i => decide (getTimelineGroup now (createdAt i) = k)) = [] := by
    intro hnil
    rw [hnil] at hckond
    simp at hckond
  rw [hfind k, if_pos ((hmemiff k).2 hne2)]
  rfl

theorem getTimelineGroup_mem_order (now c : Int) :
    getTimelineGroup now c ∈ timelineOrder := by
  show specTimelineLabel now c ∈ timelineOrder
  unfold specTimelineLabel timelineOrder
  split
  · simp
  · split
    · simp
    · split <;> simp

theorem mem_sortByNewest {δ : Type} (createdAt : δ → Int) (l : List δ) (i : δ) :
    i ∈ sortByNewest createdAt l ↔ i ∈ l :=
  List.mem_mergeSort

theorem sortByNewest_pairwise {δ : Type} (createdAt : δ → Int) (l : List δ) :
    (sortByNewest createdAt l).Pairwise (fun a b => createdAt b ≤ createdAt a) := by
  have h := @List.sorted_mergeSort δ
    (fun a b : δ => decide (createdAt b ≤ createdAt a))
    (fun a b c hab hbc => by
      simp only [decide_eq_true_iff] at *
      exact le_trans hbc hab)
    (fun a b => by
      rcases le_total (createdAt b) (createdAt a) with h | h <;> simp [h])
    l
  exact h.imp (fun hab => by simpa using hab)

/-- Claim C4: for every record list and every current time, the timeline
view assigns each record to exactly one emitted group; a group's label is
the record's `getTimelineGroup` bucket, which equals the specification's
calendar-date classification (`specTimelineLabel`); the records inside
each emitted group are sorted descending by `created_at`; and the emitted
groups are exactly the non-empty ones, in the fixed order Today,
Yesterday, Last 7 Days, Earlier. -/
theorem C4_timeline_grouping {δ : Type} (createdAt : δ → Int) (now : Int)
    (l : List δ) :
    (∀ c : Int, getTimelineGroup now c = specTimelineLabel now c) ∧
    (∀ i, i ∈ l → ∃! g, g ∈ timelineGroups createdAt now l ∧ i ∈ g.2) ∧
    (∀ g, g ∈ timelineGroups createdAt now l → ∀ i, i ∈ g.2 →
      g.1 = getTimelineGroup now (createdAt i)) ∧
    (∀ g, g ∈ timelineGroups createdAt now l →
      g.2.Pairwise (fun a b => createdAt b ≤ createdAt a)) ∧
    (∀ g, g ∈ timelineGroups createdAt now l → g.2 ≠ []) ∧
    ((timelineGroups createdAt now l).map Prod.fst).Sublist timelineOrder := by
  refine ⟨fun c => rfl, ?_⟩
  by_cases hemp : l.isEmpty = true
  · have hT : timelineGroups createdAt now l = [] := by
      unfold timelineGroups
      rw [if_pos hemp]
    rw [hT]
    refine ⟨?_, ?_, ?_, ?_, ?_⟩
    · intro i hi
      rw [List.isEmpty_iff] at hemp
      subst hemp
      cases hi
    · intro g hg; cases hg
    · intro g hg; cases hg
    · intro g hg; cases hg
    · simp
  · have hne : l.isEmpty = false := by
      cases h : l.isEmpty
      · rfl
      · exact absurd h hemp
    rw [timelineGroups_eq createdAt now l hne]
    have hmemT : ∀ g : String × List δ,
        g ∈ (timelineOrder.filter fun k =>
          !(l.filter fun i => decide (getTimelineGroup now (createdAt i) = k)).isEmpty).map
          (fun k => (k, sortByNewest createdAt
            (l.filter fun i => decide (getTimelineGroup now (createdAt i) = k)))) ↔
        ∃ k, (k ∈ timelineOrder ∧
            (!(l.filter fun i =>
              decide (getTimelineGroup now (createdAt i) = k)).isEmpty) = true) ∧
          g = (k, sortByNewest createdAt
            (l.filter fun i => decide (getTimelineGroup now (createdAt i) = k))) := by
      intro g
      rw [List.mem_map]
      constructor
      · rintro ⟨k, hk, rfl⟩
        exact ⟨k, List.mem_filter.1 hk, rfl⟩
      · rintro ⟨k, hk, rfl⟩
        exact ⟨k, List.mem_filter.2 hk, rfl⟩
    have hmemS : ∀ (k : String) (i : δ),
        i ∈ sortByNewest createdAt
          (l.filter fun i => decide (getTimelineGroup now (createdAt i) = k)) ↔
        i ∈ l ∧ getTimelineGroup now (createdAt i) = k := by
      intro k i
      rw [mem_sortByNewest, List.mem_filter]
      simp
    refine ⟨?_, ?_, ?_, ?_, ?_⟩
    · intro i hi
      refine ⟨(getTimelineGroup now (createdAt i),
        sortByNewest createdAt (l.filter fun j =>
          decide (getTimelineGroup now (createdAt j) =
            getTimelineGroup now (createdAt i)))), ⟨?_, ?_⟩, ?_⟩
      · refine (hmemT _).2 ⟨getTimelineGroup now (createdAt i),
          ⟨getTimelineGroup_mem_order now (createdAt i), ?_⟩, rfl⟩
        have : i ∈ l.filter fun j =>
            decide (getTimelineGroup now (createdAt j) =
              getTimelineGroup now (createdAt i)) :=
          List.mem_filter.2 ⟨hi, by simp⟩
        cases hfe : (l.filter fun j =>
            decide (getTimelineGroup now (createdAt j) =
              getTimelineGroup now (createdAt i))).isEmpty
        · rfl
        · rw [List.isEmpty_iff] at hfe
          rw [hfe] at this
          cases this
      · exact (hmemS _ i).2 ⟨hi, rfl⟩
      · rintro g ⟨hgmem, hgi⟩
        rcases (hmemT g).1 hgmem with ⟨k, _, rfl⟩
        have hk : getTimelineGroup now (createdAt i) = k := ((hmemS k i).1 hgi).2
        rw [hk]
    · intro g hg i hig
      rcases (hmemT g).1 hg with ⟨k, _, rfl⟩
      exact (((hmemS k i).1 hig).2).symm
    · intro g hg
      rcases (hmemT g).1 hg with ⟨k, _, rfl⟩
      exact sortByNewest_pairwise createdAt _
    · intro g hg
      rcases (hmemT g).1 hg with ⟨k, ⟨_, hne2⟩, rfl⟩
      intro hnil
      have hnil2 : sortByNewest createdAt
          (l.filter fun i => decide (getTimelineGroup now (createdAt i) = k)) = [] := hnil
      have hperm := List.mergeSort_perm
        (l.filter fun i => decide (getTimelineGroup now (createdAt i) = k))
        (fun a b => decide (createdAt b ≤ createdAt a))
      unfold sortByNewest at hnil2
      rw [hnil2] at hperm
      have hfe : (l.filter fun i =>
          decide (getTimelineGroup now (createdAt i) = k)) = [] :=
        List.Perm.eq_nil hperm.symm
      rw [hfe] at hne2
      simp at hne2
    · rw [List.map_map]
      have : (Prod.fst ∘ fun k => (k, sortByNewest createdAt
          (l.filter fun i => decide (getTimelineGroup now (createdAt i) = k)))) = id := by
        funext k
        rfl
      rw [this, List.map_id]
      exact List.filter_sublist timelineOrder

/-- Witness for `C4_timeline_grouping` at a concrete record list. -/
theorem C4_witness :
    ∃! g, g ∈ timelineGroups Item.created_at 0
        [({ id := 1, item_name := "keys", location := "drawer",
            category := none, created_at := 0 } : Item)] ∧
      ({ id := 1, item_name := "keys", location := "drawer",
         category := none, created_at := 0 } : Item) ∈ g.2 :=
  (C4_timeline_grouping Item.created_at 0
      [{ id := 1, item_name := "keys", location := "drawer",
         category := none, created_at := 0 }]).2.1
    _ (List.mem_singleton.2 rfl)

/-! ### Recency flags -/

namespace StoredItemsPage

/-- `isRecentlyAdded(dateString)` from `StoredItemsPage`:
`diffMinutes = (now - created) / (1000 * 60); return diffMinutes <= 5`.
Over integer millisecond differences the double-precision quotient compares
to `5` exactly as the integer difference compares to `5 * (1000 * 60)`
(a quotient within half an ulp of `5` would need a fractional difference),
so the division is modelled by the equivalent integer comparison. -/
def isRecentlyAdded (now created : Int) : Bool :=
  decide (now - created ≤ 5 * (1000 * 60))

end StoredItemsPage

namespace DocumentsPage

/-- `isRecentlyAdded(dateString)` from the documents page:
`fiveMinutes = 5 * 60 * 1000; return (now - addedTime) < fiveMinutes` —
note the strict comparison, unlike the items page. -/
def isRecentlyAdded (now created : Int) : Bool :=
  decide (now - created < 5 * 60 * 1000)

end DocumentsPage

/-- Claim C7 as stated is false: at an age of exactly 5 minutes
(300000 ms) the items page still flags the record
(`diffMinutes <= 5`) while the documents page does not
(`now - addedTime < fiveMinutes` is strict), so the flag is not computed
identically on the two pages, and on the documents page it is not
equivalent to `now - createdAt ≤ 5 minutes`. -/
theorem C7_counterexample :
    StoredItemsPage.isRecentlyAdded 300000 0 = true ∧
    DocumentsPage.isRecentlyAdded 300000 0 = false := by
  decide

/-- Claim C7, amended: the items page flags a record as recently added iff
`now - createdAt ≤ 5` minutes, the documents page iff
`now - createdAt < 5` minutes (strict); the two agree everywhere except at
exactly 5 minutes, and in particular a record 4 minutes old is flagged on
both pages and a record 6 minutes old on neither. -/
theorem C7_recency_amended (now created : Int) :
    (StoredItemsPage.isRecentlyAdded now created = true ↔
      now - created ≤ 5 * (1000 * 60)) ∧
    (DocumentsPage.isRecentlyAdded now created = true ↔
      now - created < 5 * 60 * 1000) ∧
    (now - created = 4 * 60 * 1000 →
      StoredItemsPage.isRecentlyAdded now created = true ∧
      DocumentsPage.isRecentlyAdded now created = true) ∧
    (now - created = 6 * 60 * 1000 →
      StoredItemsPage.isRecentlyAdded now created = false ∧
      DocumentsPage.isRecentlyAdded now created = false) := by
  unfold StoredItemsPage.isRecentlyAdded DocumentsPage.isRecentlyAdded
  refine ⟨by simp, by simp, ?_, ?_⟩
  · intro h
    constructor <;> simp <;> omega
  · intro h
    constructor <;> simp <;> omega

/-- Witness for `C7_recency_amended` at a concrete instance. -/
theorem C7_witness :
    StoredItemsPage.isRecentlyAdded 240000 0 = true ∧
    DocumentsPage.isRecentlyAdded 240000 0 = true :=
  (C7_recency_amended 240000 0).2.2.1 (by decide)

/-! ### Document filter and search -/

namespace DocumentsPage

/-- The predicate of `filteredDocuments`:
`matchesType && matchesSearch`, where `matchesType` is
`filterType === 'all' || doc.document_type === filterType` and
`matchesSearch` is `!searchQuery ||
doc.document_name.toLowerCase().includes(searchQuery.toLowerCase()) ||
(doc.notes && doc.notes.toLowerCase().includes(searchQuery.toLowerCase()))`. -/
def docMatches (filterType searchQuery : String) (doc : Doc) : Bool :=
  (filterType == "all" || doc.document_type == some filterType) &&
  (searchQuery == "" ||
    jsIncludes (jsToLower doc.document_name) (jsToLower searchQuery) ||
    (match doc.notes with
     | some n => !(n == "") && jsIncludes (jsToLower n) (jsToLower searchQuery)
     | none => false))

/-- `documents.filter(doc => ...)`. -/
def filteredDocuments (filterType searchQuery : String) (docs : List Doc) :
    List Doc :=
  docs.filter (docMatches filterType searchQuery)

end DocumentsPage

theorem docMatches_iff (filterType searchQuery : String) (d : Doc) :
    DocumentsPage.docMatches filterType searchQuery d = true ↔
      (filterType = "all" ∨ d.document_type = some filterType) ∧
      (searchQuery = "" ∨
        (jsToLower searchQuery).data <:+: (jsToLower d.document_name).data ∨
        ∃ n, d.notes = some n ∧ n ≠ "" ∧
          (jsToLower searchQuery).data <:+: (jsToLower n).data) := by
  unfold DocumentsPage.docMatches jsIncludes
  cases hn : d.notes with
  | none => simp [hn]
  | some n =>
    by_cases hne : n = ""
    · subst hne
      simp [hn]
    · simp [hn, hne]
      intro h
      exact or_assoc

/-- Claim C8: a document is in the visible set iff it is in the source
list, the active type filter is the wildcard `"all"` or equals its
`document_type` exactly, and the query is empty or is a case-insensitive
substring of its name or of its non-empty notes. -/
theorem C8_filter_search (filterType searchQuery : String) (docs : List Doc)
    (d : Doc) :
    d ∈ DocumentsPage.filteredDocuments filterType searchQuery docs ↔
      d ∈ docs ∧
      (filterType = "all" ∨ d.document_type = some filterType) ∧
      (searchQuery = "" ∨
        (jsToLower searchQuery).data <:+: (jsToLower d.document_name).data ∨
        ∃ n, d.notes = some n ∧ n ≠ "" ∧
          (jsToLower searchQuery).data <:+: (jsToLower n).data) := by
  unfold DocumentsPage.filteredDocuments
  rw [List.mem_filter, docMatches_iff]

/-- Closed instance of `C8_filter_search`: the record
`{name: "Car Keys", notes: "spare"}` matches the queries `"keys"` and
`"spare"` but not `"wallet"` (with the wildcard type filter). -/
theorem C8_witness :
    (({ id := 1, document_name := "Car Keys", document_type := some "other",
        notes := some "spare", created_at := 0 } : Doc) ∈
      DocumentsPage.filteredDocuments "all" "keys"
        [{ id := 1, document_name := "Car Keys", document_type := some "other",
           notes := some "spare", created_at := 0 }]) ∧
    (({ id := 1, document_name := "Car Keys", document_type := some "other",
        notes := some "spare", created_at := 0 } : Doc) ∈
      DocumentsPage.filteredDocuments "all" "spare"
        [{ id := 1, document_name := "Car Keys", document_type := some "other",
           notes := some "spare", created_at := 0 }]) ∧
    ¬ (({ id := 1, document_name := "Car Keys", document_type := some "other",
              notes := some "spare", created_at := 0 } : Doc) ∈
      DocumentsPage.filteredDocuments "all" "wallet"
        [{ id := 1, document_name := "Car Keys", document_type := some "other",
           notes := some "spare", created_at := 0 }]) := by
  refine ⟨(C8_filter_search "all" "keys" _ _).2
      ⟨List.mem_singleton.2 rfl, Or.inl rfl, ?_⟩,
    (C8_filter_search "all" "spare" _ _).2
      ⟨List.mem_singleton.2 rfl, Or.inl rfl, ?_⟩, ?_⟩
  · exact Or.inr (Or.inl (by decide))
  · refine Or.inr (Or.inr ⟨"spare", rfl, by decide, by decide⟩)
  · intro hmem
    rcases ((C8_filter_search "all" "wallet" _ _).1 hmem).2.2 with h | h | ⟨n, hn, _, h⟩
    · exact absurd h (by decide)
    · exact absurd h (by decide)
    · cases hn
      exact absurd h (by decide)

/-! ### Category / type grouping -/

namespace StoredItemsPage

/-- `item.category?.trim() || 'Uncategorized'`: the grouping key of an
item — optional chaining yields the sentinel when `category` is absent,
and a trimmed-to-blank (falsy) string also falls back to the sentinel. -/
def itemKey (i : Item) : String :=
  match i.category with
  | none => "Uncategorized"
  | some c => if jsTrim c = "" then "Uncategorized" else jsTrim c

/-- The `groupedItems` memo: reduce into an insertion-ordered object, then
`Object.entries(categories).sort(([a], [b]) => a.localeCompare(b))`. -/
def groupedItems (items : List Item) : List (String × List Item) :=
  if items.isEmpty then []
  else (groupByOrdered itemKey items).mergeSort (fun p q => localeLe p.1 q.1)

end StoredItemsPage

namespace DocumentsPage

/-- `doc.document_type || 'other'`: the grouping key of a document — the
raw type string (not trimmed), with the sentinel only for an absent or
empty (falsy) value. -/
def docKey (d : Doc) : String :=
  match d.document_type with
  | none => "other"
  | some t => if t = "" then "other" else t

/-- The `groupedDocuments` reduce; the page renders it through
`Object.entries(groupedDocuments)`, i.e. in key-insertion order, with no
sorting pass. -/
def groupedDocuments (docs : List Doc) : List (String × List Doc) :=
  groupByOrdered docKey docs

end DocumentsPage

/-- Claim C5 as stated is false on the documents page: the groups are
emitted in key-insertion order, not sorted ascending (`"b"` before `"a"`
here), and the key is the raw `document_type`, not trimmed
(`" a "` stays `" a "`). -/
theorem C5_counterexample :
    ((DocumentsPage.groupedDocuments
        [{ id := 1, document_name := "x", document_type := some "b",
           notes := none, created_at := 0 },
         { id := 2, document_name := "y", document_type := some "a",
           notes := none, created_at := 0 }]).map Prod.fst = ["b", "a"]) ∧
    DocumentsPage.docKey
      { id := 3, document_name := "z",
        document_type := some " a ", notes := none, created_at := 0 } = " a " := by
  constructor
  · rfl
  · rfl

theorem groupedItems_mem {items : List Item} {g : String × List Item}
    (hg : g ∈ StoredItemsPage.groupedItems items) :
    g ∈ (firstOccurFrom [] (items.map StoredItemsPage.itemKey)).map
      (fun k => (k, items.filter fun i => decide (StoredItemsPage.itemKey i = k))) := by
  unfold StoredItemsPage.groupedItems at hg
  by_cases hemp : items.isEmpty = true
  · rw [if_pos hemp] at hg
    cases hg
  · rw [if_neg hemp] at hg
    rw [← groupByOrdered_eq]
    exact List.mem_mergeSort.1 hg

/-- Claim C5, amended: on the items page the key is the trimmed category
(blank or absent mapping to "Uncategorized"), the emitted group labels are
pairwise distinct literal strings sorted ascending case-insensitively, and
each group lists exactly the items with that literal key in their original
relative order; on the documents page the key is the raw (untrimmed)
`document_type` with "other" for blank or absent, the groups are emitted
in order of first occurrence (not sorted), again with original relative
order inside each group.  Literal key distinctness keeps
"Tools" and "tools" in separate groups on both pages. -/
theorem C5_category_grouping_amended (items : List Item) (docs : List Doc) :
    (∀ g, g ∈ StoredItemsPage.groupedItems items →
      g.2 = items.filter fun i => decide (StoredItemsPage.itemKey i = g.1)) ∧
    (∀ i, i ∈ items → ∃ g, g ∈ StoredItemsPage.groupedItems items ∧ i ∈ g.2 ∧
      g.1 = StoredItemsPage.itemKey i) ∧
    ((StoredItemsPage.groupedItems items).map Prod.fst).Pairwise
      (fun a b => (jsToLower a).data ≤ (jsToLower b).data) ∧
    ((StoredItemsPage.groupedItems items).map Prod.fst).Nodup ∧
    (∀ g, g ∈ DocumentsPage.groupedDocuments docs →
      g.2 = docs.filter fun d => decide (DocumentsPage.docKey d = g.1)) ∧
    ((DocumentsPage.groupedDocuments docs).map Prod.fst =
      firstOccurFrom [] (docs.map DocumentsPage.docKey)) ∧
    ((DocumentsPage.groupedDocuments docs).map Prod.fst).Nodup := by
  have hdocs : DocumentsPage.groupedDocuments docs =
      (firstOccurFrom [] (docs.map DocumentsPage.docKey)).map
        (fun k => (k, docs.filter fun d => decide (DocumentsPage.docKey d = k))) :=
    groupByOrdered_eq DocumentsPage.docKey docs
  refine ⟨?_, ?_, ?_, ?_, ?_, ?_, ?_⟩
  · intro g hg
    rcases List.mem_map.1 (groupedItems_mem hg) with ⟨k, _, rfl⟩
    rfl
  · intro i hi
    by_cases hemp : items.isEmpty = true
    · rw [List.isEmpty_iff] at hemp
      subst hemp
      cases hi
    · refine ⟨(StoredItemsPage.itemKey i,
        items.filter fun j => decide (StoredItemsPage.itemKey j =
          StoredItemsPage.itemKey i)), ?_, ?_, rfl⟩
      · unfold StoredItemsPage.groupedItems
        rw [if_neg hemp]
        refine List.mem_mergeSort.2 ?_
        rw [groupByOrdered_eq]
        refine List.mem_map.2 ⟨StoredItemsPage.itemKey i, ?_, rfl⟩
        refine (mem_firstOccurFrom _ _ _).2
          ⟨List.mem_map.2 ⟨i, hi, rfl⟩, List.not_mem_nil _⟩
      · exact List.mem_filter.2 ⟨hi, by simp⟩
  · unfold StoredItemsPage.groupedItems
    by_cases hemp : items.isEmpty = true
    · rw [if_pos hemp]
      simp
    · rw [if_neg hemp]
      have hsorted := @List.sorted_mergeSort (String × List Item)
        (fun p q => localeLe p.1 q.1)
        (fun a b c hab hbc => localeLe_trans a.1 b.1 c.1 hab hbc)
        (fun a b => localeLe_total a.1 b.1)
        (groupByOrdered StoredItemsPage.itemKey items)
      rw [List.pairwise_map]
      exact hsorted.imp (fun h => localeLe_lower_le _ _ h)
  · unfold StoredItemsPage.groupedItems
    by_cases hemp : items.isEmpty = true
    · rw [if_pos hemp]
      simp
    · rw [if_neg hemp]
      have hperm : ((groupByOrdered StoredItemsPage.itemKey items).mergeSort
          (fun p q => localeLe p.1 q.1)).Perm
          (groupByOrdered StoredItemsPage.itemKey items) :=
        List.mergeSort_perm _ _
      have hpermmap := hperm.map Prod.fst
      rw [(hpermmap.nodup_iff)]
      rw [groupByOrdered_eq, List.map_map]
      have : (Prod.fst ∘ fun k => (k, items.filter fun i =>
          decide (StoredItemsPage.itemKey i = k))) = id := by
        funext k
        rfl
      rw [this, List.map_id]
      exact nodup_firstOccurFrom _ _
  · intro g hg
    rw [hdocs] at hg
    rcases List.mem_map.1 hg with ⟨k, _, rfl⟩
    rfl
  · rw [hdocs, List.map_map]
    have : (Prod.fst ∘ fun k => (k, docs.filter fun d =>
        decide (DocumentsPage.docKey d = k))) = id := by
      funext k
      rfl
    rw [this, List.map_id]
  · rw [hdocs, List.map_map]
    have : (Prod.fst ∘ fun k => (k, docs.filter fun d =>
        decide (DocumentsPage.docKey d = k))) = id := by
      funext k
      rfl
    rw [this, List.map_id]
    exact nodup_firstOccurFrom _ _

/-- Witness for `C5_category_grouping_amended` at a concrete item list. -/
theorem C5_witness :
    ∃ g, g ∈ StoredItemsPage.groupedItems
        [({ id := 1, item_name := "hammer", location := "shed",
            category := some "Tools", created_at := 0 } : Item)] ∧
      ({ id := 1, item_name := "hammer", location := "shed",
         category := some "Tools", created_at := 0 } : Item) ∈ g.2 ∧
      g.1 = StoredItemsPage.itemKey
        { id := 1, item_name := "hammer", location := "shed",
          category := some "Tools", created_at := 0 } :=
  (C5_category_grouping_amended
      [{ id := 1, item_name := "hammer", location := "shed",
         category := some "Tools", created_at := 0 }] []).2.1
    _ (List.mem_singleton.2 rfl)

/-! ### Debounced suggestion fetcher

The documents page schedules `fetchSuggestions` with
`setTimeout(fetchSuggestions, 150)` on every `searchQuery` change and
cancels the previous timer in the effect cleanup.  `SuggState` holds the
`suggestions` and `showSuggestions` cells and the pending timer (its
deadline and the query captured by the scheduled callback); events are
query changes and timer expirations, the latter carrying the outcome the
suggestion request would produce (`none` for `success: false`).  The
machine also accumulates the list of queries for which
`getDocumentSuggestions` was actually called. -/

structure SuggState where
  suggestions : List Doc
  showSuggestions : Bool
  timer : Option (Nat × String)
deriving DecidableEq

/-- Events driving the suggestion effect. -/
inductive SuggEvent where
  | change (t : Nat) (q : String)
  | fire (t : Nat) (result : Option (List Doc))

/-- Initial component state: `useState([])`, `useState(false)`, no timer. -/
def suggInit : SuggState :=
  { suggestions := [], showSuggestions := false, timer := none }

/-- The `fetchSuggestions` callback, run when the debounce timer elapses
with the query it captured: a query shorter than 2 characters clears and
hides the list and returns without fetching; otherwise
`getDocumentSuggestions` is issued (its query is the second component) and
a successful non-empty result is stored and shown, while an empty result
or a failure clears and hides. -/
def fetchSuggestions (q : String) (res : Option (List Doc)) (s : SuggState) :
    SuggState × Option String :=
  if q.length < 2 then
    ({ s with suggestions := [], showSuggestions := false }, none)
  else
    match res with
    | some data =>
      if 0 < data.length then
        ({ s with suggestions := data, showSuggestions := true }, some q)
      else
        ({ s with suggestions := [], showSuggestions := false }, some q)
    | none => ({ s with suggestions := [], showSuggestions := false }, some q)

/-- One step of the suggestion effect.  A query change only swaps the
pending timer (`clearTimeout` + `setTimeout(fetchSuggestions, 150)`); a
timer expiration at or past its deadline consumes the timer and runs
`fetchSuggestions`, appending the issued query (if any) to the log. -/
def suggStep : SuggState × List String → SuggEvent → SuggState × List String
  | (s, log), .change t q => ({ s with timer := some (t + 150, q) }, log)
  | (s, log), .fire t res =>
    match s.timer with
    | none => (s, log)
    | some (d, q) =>
      if d ≤ t then
        ((fetchSuggestions q res { s with timer := none }).1,
          log ++ (fetchSuggestions q res { s with timer := none }).2.toList)
      else (s, log)

/-- Run the machine from the initial state over a finite event trace. -/
def runSugg (events : List SuggEvent) : SuggState × List String :=
  events.foldl suggStep (suggInit, [])

theorem suggStep_change (s : SuggState) (log : List String) (t : Nat) (q : String) :
    suggStep (s, log) (.change t q) = ({ s with timer := some (t + 150, q) }, log) :=
  rfl

theorem suggStep_fire_none (sug : List Doc) (shw : Bool) (log : List String)
    (t : Nat) (res : Option (List Doc)) :
    suggStep (⟨sug, shw, none⟩, log) (.fire t res) = (⟨sug, shw, none⟩, log) :=
  rfl

theorem suggStep_fire_some (sug : List Doc) (shw : Bool) (d : Nat) (q : String)
    (log : List String) (t : Nat) (res : Option (List Doc)) :
    suggStep (⟨sug, shw, some (d, q)⟩, log) (.fire t res) =
      if d ≤ t then
        ((fetchSuggestions q res ⟨sug, shw, none⟩).1,
          log ++ (fetchSuggestions q res ⟨sug, shw, none⟩).2.toList)
      else (⟨sug, shw, some (d, q)⟩, log) :=
  rfl

theorem fetchSuggestions_short (q : String) (res : Option (List Doc)) (s : SuggState)
    (h : q.length < 2) :
    fetchSuggestions q res s =
      ({ s with suggestions := [], showSuggestions := false }, none) := by
  unfold fetchSuggestions
  rw [if_pos h]

theorem fetchSuggestions_fetched (q : String) (res : Option (List Doc))
    (s : SuggState) (h : ¬q.length < 2) :
    (fetchSuggestions q res s).2 = some q := by
  unfold fetchSuggestions
  rw [if_neg h]
  cases res with
  | some data => by_cases hlen : 0 < data.length <;> simp [hlen]
  | none => rfl

theorem suggStep_log (ev : SuggEvent) (s : SuggState) (log : List String)
    (h : ∀ q ∈ log, 2 ≤ q.length) :
    ∀ q ∈ (suggStep (s, log) ev).2, 2 ≤ q.length := by
  obtain ⟨sug, shw, tmr⟩ := s
  cases ev with
  | change t q =>
    rw [suggStep_change]
    exact h
  | fire t res =>
    cases tmr with
    | none =>
      rw [suggStep_fire_none]
      exact h
    | some dq =>
      obtain ⟨d, q0⟩ := dq
      rw [suggStep_fire_some]
      by_cases hd : d ≤ t
      · rw [if_pos hd]
        intro q hq
        rcases List.mem_append.1 hq with hq | hq
        · exact h q hq
        · by_cases hlen : q0.length < 2
          · rw [fetchSuggestions_short q0 res _ hlen] at hq
            simp at hq
          · rw [fetchSuggestions_fetched q0 res _ hlen] at hq
            have hqq : q = q0 := by simpa using hq
            rw [hqq]
            exact Nat.le_of_not_lt hlen
      · rw [if_neg hd]
        exact h

theorem runSugg_aux (events : List SuggEvent) :
    ∀ (s : SuggState) (log : List String), (∀ q ∈ log, 2 ≤ q.length) →
      ∀ q ∈ (events.foldl suggStep (s, log)).2, 2 ≤ q.length := by
  induction events with
  | nil => exact fun s log h => h
  | cons ev evs ih =>
    intro s log h
    have h' := suggStep_log ev s log h
    have hgoal := ih (suggStep (s, log) ev).1 (suggStep (s, log) ev).2 h'
    simpa using hgoal

/-- A concrete document record used as suggestion data. -/
def sampleDoc : Doc :=
  { id := 1, document_name := "n", document_type := none,
    notes := none, created_at := 0 }

/-- Claim C9 as stated is false in its second half: after a change from a
long query (whose fetch succeeded and showed suggestions) to the
sub-minimum query `"a"`, the suggestion list is still shown — nothing is
cleared at the moment of the change, because the length guard lives inside
the debounced callback; the list is cleared only when the 150 ms timer
fires. -/
theorem C9_counterexample :
    (runSugg [SuggEvent.change 0 "ab", SuggEvent.fire 150 (some [sampleDoc]),
      SuggEvent.change 1000 "a"]).1.showSuggestions = true ∧
    (runSugg [SuggEvent.change 0 "ab", SuggEvent.fire 150 (some [sampleDoc]),
      SuggEvent.change 1000 "a"]).1.suggestions = [sampleDoc] ∧
    (runSugg [SuggEvent.change 0 "ab", SuggEvent.fire 150 (some [sampleDoc]),
      SuggEvent.change 1000 "a",
      SuggEvent.fire 1150 none]).1.showSuggestions = false :=
  ⟨rfl, rfl, rfl⟩

/-- Claim C9, amended: over every event trace from the initial state, a
suggestion fetch is issued only for queries of length at least 2 —
sub-minimum queries never reach the request; however the clearing and
hiding of the list for a sub-minimum query happens only when its 150 ms
debounce timer fires (with no fetch issued), while the query-change event
itself leaves the suggestion list, its visibility and the fetch log
untouched. -/
theorem C9_suggestion_gate_amended :
    (∀ events : List SuggEvent, ∀ q ∈ (runSugg events).2, 2 ≤ q.length) ∧
    (∀ (s : SuggState) (log : List String) (t d : Nat)
        (res : Option (List Doc)) (q : String),
      s.timer = some (d, q) → d ≤ t → q.length < 2 →
      suggStep (s, log) (.fire t res) =
        ({ s with suggestions := [], showSuggestions := false, timer := none }, log)) ∧
    (∀ (s : SuggState) (log : List String) (t : Nat) (q : String),
      (suggStep (s, log) (.change t q)).1.suggestions = s.suggestions ∧
      (suggStep (s, log) (.change t q)).1.showSuggestions = s.showSuggestions ∧
      (suggStep (s, log) (.change t q)).2 = log) := by
  refine ⟨?_, ?_, ?_⟩
  · intro events
    exact runSugg_aux events suggInit [] (by intro q hq; cases hq)
  · intro s log t d res q htimer hd hq
    obtain ⟨sug, shw, tmr⟩ := s
    have htmr : tmr = some (d, q) := htimer
    subst htmr
    rw [suggStep_fire_some, if_pos hd, fetchSuggestions_short q res _ hq]
    simp
  · intro s log t q
    exact ⟨rfl, rfl, rfl⟩

/-- Witness for `C9_suggestion_gate_amended` at a concrete trace. -/
theorem C9_witness :
    2 ≤ ("ab" : String).length ∧
    suggStep ({ suggestions := [], showSuggestions := true,
                timer := some (150, "a") }, []) (.fire 150 none) =
      ({ suggestions := [], showSuggestions := false, timer := none }, []) := by
  constructor
  · refine C9_suggestion_gate_amended.1
      [SuggEvent.change 0 "ab", SuggEvent.fire 150 none] "ab" ?_
    show "ab" ∈ (runSugg [SuggEvent.change 0 "ab", SuggEvent.fire 150 none]).2
    rw [show (runSugg [SuggEvent.change 0 "ab", SuggEvent.fire 150 none]).2 = ["ab"]
      from rfl]
    exact List.mem_singleton.2 rfl
  · exact C9_suggestion_gate_amended.2.1 _ [] 150 150 none "a" rfl (le_refl 150)
      (by decide)
